import Mathlib

/-
  Verification of the MCP AI server's protocol layer.

  The Go source is embedded shallowly: the JSON-RPC envelope type and its
  classification helpers, the stdio and WebSocket session handlers, the
  tool-registry construction, and the stdio connection's pending-response
  table become Lean definitions; stateful handlers become explicit
  state-passing functions.  JSON payloads that the protocol layer only
  passes through (params, capabilities, tool arguments) are represented by
  already-classified values, since the handlers only branch on whether the
  payload decodes into the expected shape.
-/

namespace MCPAI

/-- JSON-RPC request identifier: on the wire a string or a number; the Go
    code stores it as an opaque dynamic value that is either absent or set. -/
inductive RpcId where
  | num (n : Int)
  | str (s : String)
deriving DecidableEq, Repr

/-- Client identity supplied during initialize. -/
structure ClientInfo where
  name : String
  version : String
deriving DecidableEq, Repr

/-- Tool descriptor; inputSchema is an opaque JSON-schema-like payload that
    the protocol layer never inspects, kept as key/value pairs. -/
structure Tool where
  name : String
  description : String
  inputSchema : List (String × String)
deriving DecidableEq, Repr

/-- Content item of a tool or resource result. -/
structure Content where
  type : String
  text : String
deriving DecidableEq, Repr

/-- Parameters of the initialize method. -/
structure InitializeParams where
  protocolVersion : String
  capabilities : List (String × String)
  clientInfo : Option ClientInfo
deriving DecidableEq, Repr

/-- Parameters of the tools/call method. -/
structure ToolCallParams where
  name : String
  arguments : List (String × String)
deriving DecidableEq, Repr

/-- Parameters of the resources/read method. -/
structure ResourceReadParams where
  uri : String
deriving DecidableEq, Repr

/-- The raw params payload of a message.  In Go this is a json.RawMessage
    decoded on demand by each handler; here it carries the already-parsed
    shape, with dedicated cases for an empty payload and for bytes that do
    not decode. -/
inductive Params where
  | empty
  | initParams (p : InitializeParams)
  | toolCall (p : ToolCallParams)
  | resourceRead (p : ResourceReadParams)
  | malformed
deriving DecidableEq, Repr

/-- The result payload of a response, one case per concrete result struct
    the Go handlers construct. -/
inductive ResultVal where
  | initializeResult (protocolVersion : String) (capabilities : List (String × String))
      (serverName serverVersion : String)
  | toolsList (tools : List Tool)
  | toolCallResult (content : List Content)
  | resourceReadResult (contents : List Content) (mimeType : String)
deriving DecidableEq, Repr

/-- JSON-RPC error object; the diagnostic data payload is an optional
    string (the Go code only ever stores error strings or nil there). -/
structure Error where
  code : Int
  message : String
  data : Option String
deriving DecidableEq, Repr

/-- The JSON-RPC 2.0 envelope (Go struct Message). Nil-able Go fields
    (ID, Result, Error) become options; Method's absent state is the empty
    string exactly as in Go. -/
structure Message where
  jsonrpc : String
  id : Option RpcId
  method : String
  params : Params
  result : Option ResultVal
  error : Option Error
deriving DecidableEq, Repr

def JSONRPCVersion : String := "2.0"

def ParseErrorCode : Int := -32700
def InvalidRequestCode : Int := -32600
def MethodNotFoundCode : Int := -32601
def InvalidParamsCode : Int := -32602
def InternalErrorCode : Int := -32603
def ServerErrorCode : Int := -32000

/-- Go NewRequest: builds a request envelope. -/
def NewRequest (id : Option RpcId) (method : String) (params : Params) : Message :=
  { jsonrpc := JSONRPCVersion, id := id, method := method, params := params
    result := none, error := none }

/-- Go NewResponse: builds a response envelope; a nil result stays absent. -/
def NewResponse (id : Option RpcId) (result : Option ResultVal) : Message :=
  { jsonrpc := JSONRPCVersion, id := id, method := "", params := .empty
    result := result, error := none }

/-- Go NewErrorResponse: builds an error-response envelope. -/
def NewErrorResponse (id : Option RpcId) (code : Int) (message : String)
    (data : Option String) : Message :=
  { jsonrpc := JSONRPCVersion, id := id, method := "", params := .empty
    result := none, error := some { code := code, message := message, data := data } }

/-- Go NewNotification: builds a notification envelope (no id). -/
def NewNotification (method : String) (params : Params) : Message :=
  { jsonrpc := JSONRPCVersion, id := none, method := method, params := params
    result := none, error := none }

/-- Go Message.Validate: rejects a wrong jsonrpc version, and a message
    with neither method nor result nor error. -/
def Message.Validate (m : Message) : Except String Unit :=
  if m.jsonrpc ≠ JSONRPCVersion then
    .error ("invalid JSON-RPC version: " ++ m.jsonrpc)
  else if m.method = "" ∧ m.result = none ∧ m.error = none then
    .error "message must have method, result, or error"
  else
    .ok ()

/-- Go Message.IsRequest: method non-empty and id present. -/
def Message.IsRequest (m : Message) : Bool :=
  m.method != "" && m.id.isSome

/-- Go Message.IsResponse: result or error present, and id present. -/
def Message.IsResponse (m : Message) : Bool :=
  (m.result.isSome || m.error.isSome) && m.id.isSome

/-- Go Message.IsNotification: method non-empty and id absent. -/
def Message.IsNotification (m : Message) : Bool :=
  m.method != "" && m.id.isNone

/-- How many of the three shape predicates hold on a message. -/
def shapeCount (m : Message) : Nat :=
  m.IsRequest.toNat + m.IsResponse.toNat + m.IsNotification.toNat

/-- Tool arguments: an opaque JSON object the protocol layer passes
    through untouched. -/
abbrev Args := List (String × String)

/-- The executor collaborator of a server: Go interface ToolExecutor,
    returning a tool-call result (its content list) or an error string. -/
abbrev ToolExecutorFun := String → Args → Except String (List Content)

/-- Session-relevant state of Go BaseServer: registered tools, the
    injected executor, the initialized flag, stored client info, and the
    advertised capabilities. -/
structure BaseState where
  tools : List Tool
  toolExecutor : Option ToolExecutorFun
  initialized : Bool
  clientInfo : Option ClientInfo
  capabilities : List (String × String)

/-- Go BaseServer.GetTool: lookup in the tools map by name. -/
def BaseState.GetTool (s : BaseState) (name : String) : Option Tool :=
  s.tools.find? (fun t => t.name == name)

/-- Go BaseServer.GetTools: the registered tool set. -/
def BaseState.GetTools (s : BaseState) : List Tool :=
  s.tools

/-- Decoding of msg.Params into InitializeParams (stdio handleInitialize
    does json.Unmarshal into that struct). -/
def decodeInitializeParams : Params → Option InitializeParams
  | .initParams p => some p
  | _ => none

/-- Decoding of msg.Params into ToolCallParams. -/
def decodeToolCallParams : Params → Option ToolCallParams
  | .toolCall p => some p
  | _ => none

/-- Decoding of msg.Params into ResourceReadParams. -/
def decodeResourceReadParams : Params → Option ResourceReadParams
  | .resourceRead p => some p
  | _ => none

/-- Rendering of the arguments map used in the stdio default tool reply
    (fmt.Sprintf of the map); the exact text is never branched on. -/
def argsText (a : Args) : String :=
  String.intercalate " " (a.map (fun kv => kv.1 ++ ":" ++ kv.2))

/-
  Stdio server handlers (src/unnamed/part_005).  Each Go handler sends
  exactly one reply over the writer; here it returns the updated session
  state together with that reply.
-/

namespace StdioServer

/-- Go StdioServer.handleInitialize. -/
def handleInitialize (s : BaseState) (msg : Message) : BaseState × Message :=
  if s.initialized then
    (s, NewErrorResponse msg.id InvalidRequestCode "already initialized" none)
  else
    match decodeInitializeParams msg.params with
    | none => (s, NewErrorResponse msg.id InvalidParamsCode "invalid initialize params" none)
    | some p =>
      ({ s with clientInfo := p.clientInfo, initialized := true },
       NewResponse msg.id (some (.initializeResult "2024-11-05" s.capabilities
         "mcp-ai-server" "1.0.0")))

/-- Go StdioServer.handleToolsList. -/
def handleToolsList (s : BaseState) (msg : Message) : BaseState × Message :=
  if !s.initialized then
    (s, NewErrorResponse msg.id InvalidRequestCode "not initialized" none)
  else
    (s, NewResponse msg.id (some (.toolsList s.GetTools)))

/-- Go StdioServer.handleToolCall. -/
def handleToolCall (s : BaseState) (msg : Message) : BaseState × Message :=
  if !s.initialized then
    (s, NewErrorResponse msg.id InvalidRequestCode "not initialized" none)
  else
    match decodeToolCallParams msg.params with
    | none => (s, NewErrorResponse msg.id InvalidParamsCode "invalid tool call params" none)
    | some p =>
      match s.GetTool p.name with
      | none => (s, NewErrorResponse msg.id MethodNotFoundCode ("tool not found: " ++ p.name) none)
      | some tool =>
        match s.toolExecutor with
        | some ex =>
          match ex p.name p.arguments with
          | .error e =>
            (s, NewErrorResponse msg.id InternalErrorCode ("工具执行失败: " ++ e) none)
          | .ok content =>
            (s, NewResponse msg.id (some (.toolCallResult content)))
        | none =>
          (s, NewResponse msg.id (some (.toolCallResult
            [{ type := "text"
               text := "工具 " ++ tool.name ++ " 被调用，参数: " ++ argsText p.arguments }])))

/-- Go StdioServer.handleResourceRead. -/
def handleResourceRead (s : BaseState) (msg : Message) : BaseState × Message :=
  if !s.initialized then
    (s, NewErrorResponse msg.id InvalidRequestCode "not initialized" none)
  else
    match decodeResourceReadParams msg.params with
    | none => (s, NewErrorResponse msg.id InvalidParamsCode "invalid resource read params" none)
    | some p =>
      (s, NewResponse msg.id (some (.resourceReadResult
        [{ type := "text", text := "读取资源: " ++ p.uri }] "text/plain")))

/-- Go StdioServer.handleShutdown: replies with NewResponse(id, nil) and
    then stops the server process loop; the session state is not touched. -/
def handleShutdown (s : BaseState) (msg : Message) : BaseState × Message :=
  (s, NewResponse msg.id none)

/-- Go StdioServer.handleRequest: dispatch on the method string. -/
def handleRequest (s : BaseState) (msg : Message) : BaseState × Message :=
  match msg.method with
  | "initialize" => handleInitialize s msg
  | "tools/list" => handleToolsList s msg
  | "tools/call" => handleToolCall s msg
  | "resources/read" => handleResourceRead s msg
  | "shutdown" => handleShutdown s msg
  | _ => (s, NewErrorResponse msg.id MethodNotFoundCode ("method not found: " ++ msg.method) none)

/-- Go StdioServer.handleMessage: validate, classify, then dispatch;
    responses and notifications produce no reply. -/
def handleMessage (s : BaseState) (msg : Message) : BaseState × Option Message :=
  match msg.Validate with
  | .error e => (s, some (NewErrorResponse msg.id ParseErrorCode e none))
  | .ok _ =>
    if msg.IsRequest then
      let r := handleRequest s msg
      (r.1, some r.2)
    else if msg.IsResponse then
      (s, none)
    else if msg.IsNotification then
      (s, none)
    else
      (s, some (NewErrorResponse msg.id InvalidRequestCode "invalid message" none))

end StdioServer

/-
  WebSocket server handlers (src/unnamed/part_003, second file).  The Go
  handlers build their reply messages inline with literal error codes;
  those literals are kept verbatim.
-/

namespace WebSocketServer

/-- Go WebSocketServer.handleInitialize: best-effort capture of
    clientInfo.name (version is not read), literal codes. -/
def handleInitialize (s : BaseState) (msg : Message) : BaseState × Message :=
  if s.initialized then
    (s, { jsonrpc := "2.0", id := msg.id, method := "", params := .empty, result := none
          error := some { code := -32000, message := "Already initialized", data := none } })
  else
    let s2 :=
      match decodeInitializeParams msg.params with
      | some p =>
        match p.clientInfo with
        | some c => { s with clientInfo := some { name := c.name, version := "" } }
        | none => s
      | none => s
    ({ s2 with initialized := true },
     { jsonrpc := "2.0", id := msg.id, method := "", params := .empty
       result := some (.initializeResult "2024-11-05" [("tools", "")]
         "mcp-ai-websocket" "1.0.0")
       error := none })

/-- Go WebSocketServer.handleToolsList. -/
def handleToolsList (s : BaseState) (msg : Message) : BaseState × Message :=
  if !s.initialized then
    (s, { jsonrpc := "2.0", id := msg.id, method := "", params := .empty, result := none
          error := some { code := -32002, message := "Not initialized", data := none } })
  else
    (s, { jsonrpc := "2.0", id := msg.id, method := "", params := .empty
          result := some (.toolsList s.tools), error := none })

/-- Go WebSocketServer.handleToolCall. -/
def handleToolCall (s : BaseState) (msg : Message) : BaseState × Message :=
  if !s.initialized then
    (s, { jsonrpc := "2.0", id := msg.id, method := "", params := .empty, result := none
          error := some { code := -32002, message := "Not initialized", data := none } })
  else
    match s.toolExecutor with
    | none =>
      (s, { jsonrpc := "2.0", id := msg.id, method := "", params := .empty, result := none
            error := some { code := -32603, message := "Tool executor not available", data := none } })
    | some ex =>
      match decodeToolCallParams msg.params with
      | none =>
        (s, { jsonrpc := "2.0", id := msg.id, method := "", params := .empty, result := none
              error := some { code := -32602, message := "Invalid params", data := none } })
      | some p =>
        match ex p.name p.arguments with
        | .error e =>
          (s, { jsonrpc := "2.0", id := msg.id, method := "", params := .empty, result := none
                error := some { code := -32603, message := "Tool execution failed", data := some e } })
        | .ok content =>
          (s, { jsonrpc := "2.0", id := msg.id, method := "", params := .empty
                result := some (.toolCallResult content), error := none })

/-- Go WebSocketServer.handleResourceRead: always replies with a
    method-not-found error once the session is initialized. -/
def handleResourceRead (s : BaseState) (msg : Message) : BaseState × Message :=
  if !s.initialized then
    (s, { jsonrpc := "2.0", id := msg.id, method := "", params := .empty, result := none
          error := some { code := -32002, message := "Not initialized", data := none } })
  else
    (s, { jsonrpc := "2.0", id := msg.id, method := "", params := .empty, result := none
          error := some { code := -32601, message := "Resource reading not implemented", data := none } })

/-- Go WebSocketServer.handleShutdown: clears the initialized flag and
    replies with a message whose Result field is nil. -/
def handleShutdown (s : BaseState) (msg : Message) : BaseState × Message :=
  ({ s with initialized := false },
   { jsonrpc := "2.0", id := msg.id, method := "", params := .empty
     result := none, error := none })

/-- Go WebSocketServer.handleMessage: dispatch purely on the method string. -/
def handleMessage (s : BaseState) (msg : Message) : BaseState × Message :=
  match msg.method with
  | "initialize" => handleInitialize s msg
  | "tools/list" => handleToolsList s msg
  | "tools/call" => handleToolCall s msg
  | "resources/read" => handleResourceRead s msg
  | "shutdown" => handleShutdown s msg
  | _ =>
    (s, { jsonrpc := "2.0", id := msg.id, method := "", params := .empty, result := none
          error := some { code := -32601, message := "Method not found"
                          data := some ("Unknown method: " ++ msg.method) } })

end WebSocketServer

/-
  Association-list model of a Go map under repeated assignment m[k] = v:
  assignment overwrites the entry when the key is present and appends a
  fresh entry otherwise, so a key never occurs twice.
-/

/-- Lookup by key (first matching entry). -/
def lookupKey {κ α : Type} [BEq κ] : List (κ × α) → κ → Option α
  | [], _ => none
  | e :: rest, k => if e.1 == k then some e.2 else lookupKey rest k

/-- Key-membership test. -/
def containsKey {κ α : Type} [BEq κ] (m : List (κ × α)) (k : κ) : Bool :=
  (lookupKey m k).isSome

/-- Go map assignment m[k] = v: overwrite or append. -/
def setKey {κ α : Type} [BEq κ] (m : List (κ × α)) (k : κ) (v : α) : List (κ × α) :=
  if containsKey m k then m.map (fun e => if e.1 == k then (k, v) else e)
  else m ++ [(k, v)]

/-- Go delete(m, k). -/
def removeKey {κ α : Type} [BEq κ] (m : List (κ × α)) (k : κ) : List (κ × α) :=
  m.filter (fun e => !(e.1 == k))

/-- Number of entries stored under a key. -/
def countKey {κ α : Type} [BEq κ] (m : List (κ × α)) (k : κ) : Nat :=
  (m.filter (fun e => e.1 == k)).length

/-
  Tool registry construction (src/internal/tools/manager.go,
  NewToolManager): the five provider groups are registered in the fixed
  order system, network, data, database, AI; each group's tool names are
  assigned into one shared map pointing at that group.
-/

/-- The five tool-provider groups, in their registration roles. -/
inductive ProviderGroup where
  | system
  | network
  | data
  | database
  | ai
deriving DecidableEq, Repr

/-- Position of a group in the registration order of NewToolManager. -/
def ProviderGroup.idx : ProviderGroup → Nat
  | .system => 0
  | .network => 1
  | .data => 2
  | .database => 3
  | .ai => 4

/-- The tool names each provider group declares via its GetTools. -/
structure GroupTools where
  system : List String
  network : List String
  data : List String
  database : List String
  ai : List String

/-- The names a given group declares. -/
def GroupTools.namesOf (g : GroupTools) : ProviderGroup → List String
  | .system => g.system
  | .network => g.network
  | .data => g.data
  | .database => g.database
  | .ai => g.ai

/-- Whether a group declares a tool name. -/
def GroupTools.declares (g : GroupTools) (p : ProviderGroup) (x : String) : Bool :=
  (g.namesOf p).contains x

/-- One registration loop of NewToolManager: insert every tool name of a
    group into the shared map. -/
def registerGroup (m : List (String × ProviderGroup)) (names : List String)
    (p : ProviderGroup) : List (String × ProviderGroup) :=
  names.foldl (fun acc n => setKey acc n p) m

/-- The finished name-to-provider map of NewToolManager, built by the five
    registration loops in source order. -/
def NewToolManagerMap (g : GroupTools) : List (String × ProviderGroup) :=
  registerGroup
    (registerGroup
      (registerGroup
        (registerGroup
          (registerGroup [] g.system .system)
          g.network .network)
        g.data .data)
      g.database .database)
    g.ai .ai

/-- Go ToolManager.ExecuteTool: look the name up in the registry map and
    forward to the owning executor, or fail with the tool-not-found error. -/
def ToolManagerExecuteTool (tm : List (String × ToolExecutorFun)) (name : String)
    (args : Args) : Except String (List Content) :=
  match lookupKey tm name with
  | none => .error ("工具未找到: " ++ name)
  | some ex => ex name args

/-
  Stdio connection pending-response table
  (src/internal/mcp/connection.go).  The table maps a request id to nil
  while awaiting, or to the received response message.
-/

namespace stdioConnection

/-- The pending-response table (Go field responses). -/
abbrev Pending := List (RpcId × Option Message)

/-- The registration step of Go SendMessage: a request marks its id as
    awaiting (stores nil); other messages leave the table alone. -/
def sendRegister (t : Pending) (m : Message) : Pending :=
  if m.IsRequest then
    match m.id with
    | some i => setKey t i none
    | none => t
  else t

/-- Go handleResponse: store an incoming response under its id only when
    an entry for that id already exists; everything else is discarded. -/
def handleResponse (t : Pending) (m : Message) : Pending :=
  if m.IsResponse then
    match m.id with
    | some i => if containsKey t i then setKey t i (some m) else t
    | none => t
  else t

/-- One polling iteration of Go WaitForResponse: a non-nil stored response
    is removed from the table and returned; otherwise nothing happens. -/
def pollStep (t : Pending) (i : RpcId) : Pending × Option Message :=
  match lookupKey t i with
  | some (some r) => (removeKey t i, some r)
  | _ => (t, none)

/-- Go WaitForResponse with a budget of n polling iterations before the
    timeout elapses; returns nil (the sentinel) when every poll misses. -/
def waitLoop (t : Pending) (i : RpcId) : Nat → Pending × Option Message
  | 0 => (t, none)
  | Nat.succ n =>
    match pollStep t i with
    | (t2, some r) => (t2, some r)
    | (_, none) => waitLoop t i n

/-- The table-affecting events of a stdio connection's lifetime. -/
inductive ConnEvent where
  | send (m : Message)
  | recv (m : Message)
  | wait (i : RpcId)

/-- Effect of one event on the pending table: SendMessage registers
    requests, the response loop runs handleResponse on received messages,
    and a WaitForResponse poll may consume an entry. -/
def applyEvent (t : Pending) : ConnEvent → Pending
  | .send m => sendRegister t m
  | .recv m => handleResponse t m
  | .wait i => (pollStep t i).1

/-- The pending table after a sequence of events, starting empty as in
    newStdioConnection. -/
def runTrace (evs : List ConnEvent) : Pending :=
  evs.foldl applyEvent []

end stdioConnection

/-
  Concrete test vectors used by witnesses and counterexamples.
-/

/-- A validated message that mixes request and response shape. -/
def mixedMsg : Message :=
  { jsonrpc := "2.0", id := some (.num 1), method := "x", params := .empty
    result := some (.toolCallResult []), error := none }

/-- A plain concrete request message. -/
def pingMsg : Message :=
  { jsonrpc := "2.0", id := some (.num 1), method := "ping", params := .empty
    result := none, error := none }

/-- A concrete uninitialized session state with no executor. -/
def freshState : BaseState :=
  { tools := [], toolExecutor := none, initialized := false
    clientInfo := none, capabilities := [] }

/-- A concrete initialized session state with no executor. -/
def readyState : BaseState :=
  { tools := [], toolExecutor := none, initialized := true
    clientInfo := none, capabilities := [] }

/-- A concrete initialized session state whose executor dispatches through
    an empty tool-manager registry. -/
def readyManagedState : BaseState :=
  { tools := [], toolExecutor := some (fun n a => ToolManagerExecuteTool [] n a)
    initialized := true, clientInfo := none, capabilities := [] }

/-- A concrete shutdown request. -/
def shutdownMsg : Message :=
  { jsonrpc := "2.0", id := some (.num 7), method := "shutdown", params := .empty
    result := none, error := none }

/-- A concrete tools/list request. -/
def toolsListMsg : Message :=
  { jsonrpc := "2.0", id := some (.num 2), method := "tools/list", params := .empty
    result := none, error := none }

/-- A concrete initialize request with client info. -/
def initClientParams : InitializeParams :=
  { protocolVersion := "2024-11-05", capabilities := []
    clientInfo := some { name := "t", version := "1.0" } }

def initMsg : Message :=
  { jsonrpc := "2.0", id := some (.num 3), method := "initialize"
    params := .initParams initClientParams
    result := none, error := none }

/-- A concrete resources/read request. -/
def readMsg : Message :=
  { jsonrpc := "2.0", id := some (.num 4), method := "resources/read"
    params := .resourceRead { uri := "file:///tmp/a" }
    result := none, error := none }

/-- A concrete tools/call request naming a nonexistent tool. -/
def callMissingMsg : Message :=
  { jsonrpc := "2.0", id := some (.num 5), method := "tools/call"
    params := .toolCall { name := "nonexistent_tool", arguments := [] }
    result := none, error := none }

/-- A concrete response message for pending-table scenarios. -/
def lateReply : Message :=
  { jsonrpc := "2.0", id := some (.num 1), method := "", params := .empty
    result := some (.toolsList []), error := none }

/-
  Generic lemmas about the association-list map model.
-/

theorem lookupKey_append_single {κ α : Type} [BEq κ] [LawfulBEq κ]
    (m : List (κ × α)) (k : κ) (v : α) (h : lookupKey m k = none) :
    lookupKey (m ++ [(k, v)]) k = some v := by
  induction m with
  | nil => simp [lookupKey]
  | cons e rest ih =>
    by_cases he : (e.1 == k) = true
    · simp [lookupKey, he] at h
    · simp only [lookupKey, he, if_neg, Bool.false_eq_true, not_false_eq_true] at h
      rw [List.cons_append]
      simp only [lookupKey, he, if_neg, Bool.false_eq_true, not_false_eq_true]
      exact ih h

theorem lookupKey_replace_self {κ α : Type} [BEq κ] [LawfulBEq κ]
    (m : List (κ × α)) (k : κ) (v : α) (h : containsKey m k = true) :
    lookupKey (m.map (fun e => if e.1 == k then (k, v) else e)) k = some v := by
  induction m with
  | nil => simp [containsKey, lookupKey] at h
  | cons e rest ih =>
    by_cases he : (e.1 == k) = true
    · simp [lookupKey, he]
    · simp only [containsKey, lookupKey, he, if_neg, Bool.false_eq_true,
        not_false_eq_true] at h
      simp only [List.map_cons, lookupKey, he, if_neg, Bool.false_eq_true,
        not_false_eq_true]
      exact ih h

theorem lookupKey_setKey_self {κ α : Type} [BEq κ] [LawfulBEq κ]
    (m : List (κ × α)) (k : κ) (v : α) :
    lookupKey (setKey m k v) k = some v := by
  unfold setKey
  by_cases h : containsKey m k = true
  · simp only [h, if_pos]
    exact lookupKey_replace_self m k v h
  · have hn : lookupKey m k = none := by
      unfold containsKey at h
      cases hl : lookupKey m k with
      | none => rfl
      | some w => rw [hl] at h; simp at h
    simp only [h, if_neg, Bool.false_eq_true, not_false_eq_true]
    exact lookupKey_append_single m k v hn

theorem lookupKey_replace_other {κ α : Type} [BEq κ] [LawfulBEq κ]
    (m : List (κ × α)) (k j : κ) (v : α) (hjk : j ≠ k) :
    lookupKey (m.map (fun e => if e.1 == k then (k, v) else e)) j = lookupKey m j := by
  induction m with
  | nil => simp
  | cons e rest ih =>
    by_cases he : (e.1 == k) = true
    · have hek : e.1 = k := by exact eq_of_beq he
      have hkj : (k == j) = false := by
        simp only [beq_eq_false_iff_ne]
        intro hkj2; exact hjk hkj2.symm
      have hej : (e.1 == j) = false := by rw [hek]; exact hkj
      simp [lookupKey, he, hkj, hej, ih]
    · simp only [List.map_cons, lookupKey, he, if_neg, Bool.false_eq_true,
        not_false_eq_true]
      by_cases hej : (e.1 == j) = true
      · simp [lookupKey, hej]
      · simp [lookupKey, hej, ih]

theorem lookupKey_append_other {κ α : Type} [BEq κ] [LawfulBEq κ]
    (m : List (κ × α)) (k j : κ) (v : α) (hjk : j ≠ k) :
    lookupKey (m ++ [(k, v)]) j = lookupKey m j := by
  induction m with
  | nil =>
    have hkj : (k == j) = false := by
      simp only [beq_eq_false_iff_ne]
      intro hkj2; exact hjk hkj2.symm
    simp [lookupKey, hkj]
  | cons e rest ih =>
    by_cases hej : (e.1 == j) = true
    · simp [lookupKey, hej]
    · simp [lookupKey, hej, ih]

theorem lookupKey_setKey_other {κ α : Type} [BEq κ] [LawfulBEq κ]
    (m : List (κ × α)) (k j : κ) (v : α) (hjk : j ≠ k) :
    lookupKey (setKey m k v) j = lookupKey m j := by
  unfold setKey
  by_cases h : containsKey m k = true
  · simp only [h, if_pos]
    exact lookupKey_replace_other m k j v hjk
  · simp only [h, if_neg, Bool.false_eq_true, not_false_eq_true]
    exact lookupKey_append_other m k j v hjk

theorem containsKey_setKey_of_contains {κ α : Type} [BEq κ] [LawfulBEq κ]
    (m : List (κ × α)) (k j : κ) (v : α) (h : containsKey m k = true) :
    containsKey (setKey m k v) j = containsKey m j := by
  by_cases hj : j = k
  · subst hj
    unfold containsKey
    rw [lookupKey_setKey_self]
    unfold containsKey at h
    simp [h]
  · unfold containsKey
    rw [lookupKey_setKey_other m k j v hj]

theorem containsKey_setKey_elim {κ α : Type} [BEq κ] [LawfulBEq κ]
    (m : List (κ × α)) (k j : κ) (v : α) (h : containsKey (setKey m k v) j = true) :
    j = k ∨ containsKey m j = true := by
  by_cases hj : j = k
  · exact Or.inl hj
  · right
    unfold containsKey at h ⊢
    rw [lookupKey_setKey_other m k j v hj] at h
    exact h

/-- C1 counterexample: the message with jsonrpc "2.0", id 1, method "x" and
    a result payload passes Validate yet satisfies IsRequest and IsResponse
    at once, so no validated message satisfies exactly one of the three
    shape predicates. -/
theorem c1_mixed_shape_counterexample :
    (Message.Validate mixedMsg = Except.ok ()) ∧
    (Message.IsRequest mixedMsg = true) ∧
    (Message.IsResponse mixedMsg = true) ∧
    (shapeCount mixedMsg = 2) := by
  refine ⟨?_, rfl, rfl, rfl⟩
  simp [Message.Validate, mixedMsg, JSONRPCVersion]

/-- C1 (amended): a message passing Validate satisfies exactly one of
    IsRequest, IsResponse, IsNotification provided it does not combine a
    method with a result or error payload, and carries an id whenever its
    method is empty; without those provisos exclusivity fails (a validated
    message may set method, id and result together). -/
theorem c1_exactly_one_shape (m : Message)
    (hv : m.Validate = Except.ok ())
    (hmix : m.method = "" ∨ (m.result = none ∧ m.error = none))
    (hresp : m.method = "" → m.id.isSome = true) :
    shapeCount m = 1 := by
  unfold Message.Validate at hv
  by_cases h1 : m.jsonrpc ≠ JSONRPCVersion
  · simp [h1] at hv
  · by_cases h2 : m.method = "" ∧ m.result = none ∧ m.error = none
    · simp [h1, h2] at hv
    · rcases hmix with hA | hB
      · have hre : ¬(m.result = none ∧ m.error = none) := by
          intro h3
          exact h2 ⟨hA, h3.1, h3.2⟩
        cases hi : m.id with
        | none =>
          have hcontra := hresp hA
          rw [hi] at hcontra
          simp at hcontra
        | some iv =>
          cases hr : m.result with
          | some rv =>
            simp [shapeCount, Message.IsRequest, Message.IsResponse,
              Message.IsNotification, hA, hi, hr]
          | none =>
            cases he : m.error with
            | none => exact absurd ⟨hr, he⟩ hre
            | some ev =>
              simp [shapeCount, Message.IsRequest, Message.IsResponse,
                Message.IsNotification, hA, hi, hr, he]
      · have hm : m.method ≠ "" := by
          intro h3
          exact h2 ⟨h3, hB.1, hB.2⟩
        cases hi : m.id with
        | none =>
          simp [shapeCount, Message.IsRequest, Message.IsResponse,
            Message.IsNotification, hm, hi, hB.1, hB.2]
        | some iv =>
          simp [shapeCount, Message.IsRequest, Message.IsResponse,
            Message.IsNotification, hm, hi, hB.1, hB.2]

/-- C1 witness: the amended shape-partition theorem applied to a concrete
    validated request. -/
theorem c1_exactly_one_shape_witness :
    shapeCount pingMsg = 1 :=
  c1_exactly_one_shape pingMsg
    (by simp [Message.Validate, pingMsg, JSONRPCVersion])
    (Or.inr ⟨rfl, rfl⟩)
    (fun h => by simp [pingMsg] at h)

/-- C9: the stdio shutdown reply is NewResponse with a nil result, so it
    carries neither result nor error, IsResponse is false on it, and
    Validate rejects it. -/
theorem c9_stdio_shutdown_reply_shapeless (s : BaseState) (msg : Message) :
    ((StdioServer.handleShutdown s msg).2.result = none) ∧
    ((StdioServer.handleShutdown s msg).2.error = none) ∧
    ((StdioServer.handleShutdown s msg).2.IsResponse = false) ∧
    ((StdioServer.handleShutdown s msg).2.Validate =
      Except.error "message must have method, result, or error") := by
  refine ⟨rfl, rfl, ?_, ?_⟩
  · simp [StdioServer.handleShutdown, NewResponse, Message.IsResponse]
  · simp [StdioServer.handleShutdown, NewResponse, Message.Validate, JSONRPCVersion]

/-- C4 counterexample: on a concrete initialized stdio session, handling
    shutdown leaves the initialized flag set (the session does not return
    to Uninitialized) and the reply carries no result, contradicting the
    claimed success-response-with-result and state reset. -/
theorem c4_shutdown_counterexample :
    ((StdioServer.handleShutdown readyState shutdownMsg).1.initialized = true) ∧
    ((StdioServer.handleShutdown readyState shutdownMsg).2.result = none) :=
  ⟨rfl, rfl⟩

/-- C4 (amended): shutdown never produces an error response, but its reply
    carries no result either; the WebSocket variant resets the initialized
    flag to false while keeping clientInfo, whereas the stdio variant
    leaves the session state entirely unchanged (it stops the server
    instead of resetting the flag). -/
theorem c4_shutdown_behavior (s : BaseState) (msg : Message) :
    ((StdioServer.handleShutdown s msg).1 = s ∧
     (StdioServer.handleShutdown s msg).2.error = none ∧
     (StdioServer.handleShutdown s msg).2.result = none) ∧
    ((WebSocketServer.handleShutdown s msg).1.initialized = false ∧
     (WebSocketServer.handleShutdown s msg).1.clientInfo = s.clientInfo ∧
     (WebSocketServer.handleShutdown s msg).2.error = none ∧
     (WebSocketServer.handleShutdown s msg).2.result = none) :=
  ⟨⟨rfl, rfl, rfl⟩, ⟨rfl, rfl, rfl, rfl⟩⟩

/-- C2 counterexample: on a concrete uninitialized session, the WebSocket
    server answers tools/list with error code -32002, not the
    invalid-request code -32600 the claim names for both variants. -/
theorem c2_ws_code_counterexample :
    ∃ e, (WebSocketServer.handleMessage freshState toolsListMsg).2.error = some e ∧
      e.code = -32002 ∧ e.code ≠ -32600 := by
  refine ⟨{ code := -32002, message := "Not initialized", data := none }, ?_, rfl, by decide⟩
  rfl

/-- C2 (amended): handling tools/list, tools/call or resources/read on an
    uninitialized session leaves the state unchanged and yields an error
    response; the stdio server uses the invalid-request code -32600 with
    message "not initialized", while the WebSocket server uses -32002 with
    message "Not initialized". -/
theorem c2_uninitialized_rejected (s : BaseState) (msg : Message)
    (hs : s.initialized = false)
    (hm : msg.method = "tools/list" ∨ msg.method = "tools/call" ∨
      msg.method = "resources/read") :
    ((StdioServer.handleRequest s msg).1 = s ∧
     ∃ e, (StdioServer.handleRequest s msg).2.error = some e ∧
       e.code = -32600 ∧ e.message = "not initialized") ∧
    ((WebSocketServer.handleMessage s msg).1 = s ∧
     ∃ e, (WebSocketServer.handleMessage s msg).2.error = some e ∧
       e.code = -32002 ∧ e.message = "Not initialized") := by
  rcases hm with hm | hm | hm <;>
    refine ⟨⟨?_, ?_⟩, ⟨?_, ?_⟩⟩ <;>
      simp [StdioServer.handleRequest, WebSocketServer.handleMessage, hm,
        StdioServer.handleToolsList, StdioServer.handleToolCall,
        StdioServer.handleResourceRead, WebSocketServer.handleToolsList,
        WebSocketServer.handleToolCall, WebSocketServer.handleResourceRead,
        hs, NewErrorResponse, InvalidRequestCode]

/-- C2 witness: the uninitialized-rejection theorem applied to the
    concrete fresh session and a tools/list request. -/
theorem c2_uninitialized_rejected_witness :
    ((StdioServer.handleRequest freshState toolsListMsg).1 = freshState ∧
     ∃ e, (StdioServer.handleRequest freshState toolsListMsg).2.error = some e ∧
       e.code = -32600 ∧ e.message = "not initialized") ∧
    ((WebSocketServer.handleMessage freshState toolsListMsg).1 = freshState ∧
     ∃ e, (WebSocketServer.handleMessage freshState toolsListMsg).2.error = some e ∧
       e.code = -32002 ∧ e.message = "Not initialized") :=
  c2_uninitialized_rejected freshState toolsListMsg rfl (Or.inl rfl)

/-- C3 counterexample: on a concrete already-initialized session, the
    WebSocket server answers initialize with error code -32000 and message
    "Already initialized", not the invalid-request code -32600 with
    message "already initialized" the claim names for both variants. -/
theorem c3_ws_code_counterexample :
    ∃ e, (WebSocketServer.handleInitialize readyState initMsg).2.error = some e ∧
      e.code = -32000 ∧ e.code ≠ -32600 ∧ e.message ≠ "already initialized" := by
  refine ⟨{ code := -32000, message := "Already initialized", data := none }, ?_, rfl, by decide, by decide⟩
  rfl

/-- C3 (amended): initialize on an already-initialized session leaves the
    state unchanged and yields an error response; the stdio server uses the
    invalid-request code -32600 with message "already initialized", while
    the WebSocket server uses -32000 with message "Already initialized". -/
theorem c3_double_initialize_rejected (s : BaseState) (msg : Message)
    (hs : s.initialized = true) :
    ((StdioServer.handleInitialize s msg).1 = s ∧
     ∃ e, (StdioServer.handleInitialize s msg).2.error = some e ∧
       e.code = -32600 ∧ e.message = "already initialized") ∧
    ((WebSocketServer.handleInitialize s msg).1 = s ∧
     ∃ e, (WebSocketServer.handleInitialize s msg).2.error = some e ∧
       e.code = -32000 ∧ e.message = "Already initialized") := by
  refine ⟨⟨?_, ?_⟩, ⟨?_, ?_⟩⟩ <;>
    simp [StdioServer.handleInitialize, WebSocketServer.handleInitialize, hs,
      NewErrorResponse, InvalidRequestCode]

/-- C3 witness: the double-initialize theorem applied to the concrete
    initialized session and initialize request. -/
theorem c3_double_initialize_rejected_witness :
    ((StdioServer.handleInitialize readyState initMsg).1 = readyState ∧
     ∃ e, (StdioServer.handleInitialize readyState initMsg).2.error = some e ∧
       e.code = -32600 ∧ e.message = "already initialized") ∧
    ((WebSocketServer.handleInitialize readyState initMsg).1 = readyState ∧
     ∃ e, (WebSocketServer.handleInitialize readyState initMsg).2.error = some e ∧
       e.code = -32000 ∧ e.message = "Already initialized") :=
  c3_double_initialize_rejected readyState initMsg rfl

/-- C8 counterexample: on a concrete initialized session, the WebSocket
    server answers resources/read with an error response (code -32601),
    contradicting the claim that either transport returns a placeholder
    success and never an error. -/
theorem c8_ws_read_counterexample :
    ∃ e, (WebSocketServer.handleResourceRead readyState readMsg).2.error = some e ∧
      e.code = -32601 ∧
      (WebSocketServer.handleResourceRead readyState readMsg).2.result = none := by
  refine ⟨{ code := -32601, message := "Resource reading not implemented", data := none }, ?_, rfl, rfl⟩
  rfl

/-- C8 (amended): on an initialized session with well-formed uri params,
    the stdio server answers resources/read with a success result holding a
    single placeholder text entry and mime type text/plain, while the
    WebSocket server always answers it with a method-not-found error
    (-32601, resource reading not implemented). -/
theorem c8_resource_read (s : BaseState) (msg : Message) (p : ResourceReadParams)
    (hs : s.initialized = true) (hp : msg.params = .resourceRead p) :
    (StdioServer.handleResourceRead s msg =
      (s, NewResponse msg.id (some (.resourceReadResult
        [{ type := "text", text := "读取资源: " ++ p.uri }] "text/plain")))) ∧
    ((WebSocketServer.handleResourceRead s msg).1 = s ∧
     ∃ e, (WebSocketServer.handleResourceRead s msg).2.error = some e ∧
       e.code = -32601 ∧ e.message = "Resource reading not implemented" ∧
       (WebSocketServer.handleResourceRead s msg).2.result = none) := by
  refine ⟨?_, ?_, ?_⟩ <;>
    simp [StdioServer.handleResourceRead, WebSocketServer.handleResourceRead,
      hs, hp, decodeResourceReadParams]

/-- C8 witness: the resource-read theorem applied to the concrete
    initialized session and a concrete uri. -/
theorem c8_resource_read_witness :
    (StdioServer.handleResourceRead readyState readMsg =
      (readyState, NewResponse readMsg.id (some (.resourceReadResult
        [{ type := "text", text := "读取资源: " ++ "file:///tmp/a" }] "text/plain")))) ∧
    ((WebSocketServer.handleResourceRead readyState readMsg).1 = readyState ∧
     ∃ e, (WebSocketServer.handleResourceRead readyState readMsg).2.error = some e ∧
       e.code = -32601 ∧ e.message = "Resource reading not implemented" ∧
       (WebSocketServer.handleResourceRead readyState readMsg).2.result = none) :=
  c8_resource_read readyState readMsg { uri := "file:///tmp/a" } rfl rfl

/-- C7: on an initialized session whose executor dispatches through the
    tool-manager registry, a tools/call naming a tool registered neither in
    the server's tool map nor in the registry is answered with an error
    response carrying the method-not-found code -32601 or the
    internal-error code -32603 and no result, on both transports; the
    handlers are total, so the request is always answered. -/
theorem c7_unknown_tool_answered (s : BaseState) (msg : Message)
    (tm : List (String × ToolExecutorFun)) (p : ToolCallParams)
    (hs : s.initialized = true)
    (hp : msg.params = .toolCall p)
    (hsrv : s.GetTool p.name = none)
    (hreg : lookupKey tm p.name = none)
    (hex : s.toolExecutor = some (fun n a => ToolManagerExecuteTool tm n a)) :
    ((∃ e, (StdioServer.handleToolCall s msg).2.error = some e ∧
        (e.code = -32601 ∨ e.code = -32603)) ∧
     (StdioServer.handleToolCall s msg).2.result = none) ∧
    ((∃ e, (WebSocketServer.handleToolCall s msg).2.error = some e ∧
        (e.code = -32601 ∨ e.code = -32603)) ∧
     (WebSocketServer.handleToolCall s msg).2.result = none) := by
  refine ⟨⟨?_, ?_⟩, ⟨?_, ?_⟩⟩ <;>
    simp [StdioServer.handleToolCall, WebSocketServer.handleToolCall, hs, hp,
      decodeToolCallParams, hsrv, hreg, hex, ToolManagerExecuteTool,
      NewErrorResponse, MethodNotFoundCode, InternalErrorCode]

/-- C7 witness: the unknown-tool theorem applied to the concrete managed
    session and a call to a nonexistent tool. -/
theorem c7_unknown_tool_answered_witness :
    ((∃ e, (StdioServer.handleToolCall readyManagedState callMissingMsg).2.error = some e ∧
        (e.code = -32601 ∨ e.code = -32603)) ∧
     (StdioServer.handleToolCall readyManagedState callMissingMsg).2.result = none) ∧
    ((∃ e, (WebSocketServer.handleToolCall readyManagedState callMissingMsg).2.error = some e ∧
        (e.code = -32601 ∨ e.code = -32603)) ∧
     (WebSocketServer.handleToolCall readyManagedState callMissingMsg).2.result = none) :=
  c7_unknown_tool_answered readyManagedState callMissingMsg []
    { name := "nonexistent_tool", arguments := [] } rfl rfl rfl rfl rfl

theorem containsKey_removeKey_elim {κ α : Type} [BEq κ] [LawfulBEq κ]
    (m : List (κ × α)) (k j : κ) (h : containsKey (removeKey m k) j = true) :
    containsKey m j = true := by
  induction m with
  | nil => simp [removeKey, containsKey, lookupKey] at h
  | cons e rest ih =>
    unfold removeKey at h
    by_cases hek : (e.1 == k) = true
    · simp only [List.filter_cons, hek, Bool.not_true, if_neg, Bool.false_eq_true,
        not_false_eq_true] at h
      have := ih (by unfold removeKey; exact h)
      unfold containsKey lookupKey
      by_cases hej : (e.1 == j) = true
      · simp [hej]
      · simpa [hej] using this
    · simp only [List.filter_cons, hek, Bool.not_false, if_pos] at h
      unfold containsKey lookupKey at h ⊢
      by_cases hej : (e.1 == j) = true
      · simp [hej]
      · simp only [hej, if_neg, Bool.false_eq_true, not_false_eq_true] at h ⊢
        exact ih (by unfold removeKey; simpa [containsKey] using h)

theorem countKey_replace {κ α : Type} [BEq κ] [LawfulBEq κ]
    (m : List (κ × α)) (k y : κ) (v : α) :
    countKey (m.map (fun e => if e.1 == k then (k, v) else e)) y = countKey m y := by
  induction m with
  | nil => rfl
  | cons e rest ih =>
    have hkey : (if (e.1 == k) = true then (k, v) else e).1 = e.1 := by
      by_cases he : (e.1 == k) = true
      · simp [he, eq_of_beq he]
      · simp [he]
    simp only [List.map_cons, countKey, List.filter_cons, hkey]
    by_cases hy : (e.1 == y) = true
    · simp only [hy, if_pos, List.length_cons]
      simpa [countKey] using ih
    · simp only [hy, Bool.false_eq_true, not_false_eq_true, if_neg]
      simpa [countKey] using ih

theorem countKey_append_single {κ α : Type} [BEq κ] [LawfulBEq κ]
    (m : List (κ × α)) (k y : κ) (v : α) :
    countKey (m ++ [(k, v)]) y =
      countKey m y + (if (k == y) = true then 1 else 0) := by
  by_cases h : (k == y) = true <;>
    simp [countKey, List.filter_append, List.filter_cons, h]

theorem countKey_zero_of_not_contains {κ α : Type} [BEq κ] [LawfulBEq κ]
    (m : List (κ × α)) (k : κ) (h : containsKey m k = false) :
    countKey m k = 0 := by
  induction m with
  | nil => rfl
  | cons e rest ih =>
    unfold containsKey lookupKey at h
    by_cases he : (e.1 == k) = true
    · simp [he] at h
    · simp only [he, Bool.false_eq_true, not_false_eq_true, if_neg] at h
      simp only [countKey, List.filter_cons, he, Bool.false_eq_true,
        not_false_eq_true, if_neg]
      exact ih h

theorem one_le_countKey_of_lookup {κ α : Type} [BEq κ] [LawfulBEq κ]
    (m : List (κ × α)) (k : κ) (v : α) (h : lookupKey m k = some v) :
    1 ≤ countKey m k := by
  induction m with
  | nil => simp [lookupKey] at h
  | cons e rest ih =>
    unfold lookupKey at h
    by_cases he : (e.1 == k) = true
    · simp [countKey, List.filter_cons, he]
    · simp only [he, Bool.false_eq_true, not_false_eq_true, if_neg] at h
      simp only [countKey, List.filter_cons, he, Bool.false_eq_true,
        not_false_eq_true, if_neg]
      exact ih h

theorem countKey_setKey_le_one {κ α : Type} [BEq κ] [LawfulBEq κ]
    (m : List (κ × α)) (k : κ) (v : α) (h : ∀ y, countKey m y ≤ 1) :
    ∀ y, countKey (setKey m k v) y ≤ 1 := by
  intro y
  unfold setKey
  by_cases hc : containsKey m k = true
  · simp only [hc, if_pos]
    rw [countKey_replace]
    exact h y
  · simp only [hc, Bool.false_eq_true, not_false_eq_true, if_neg]
    rw [countKey_append_single]
    by_cases hky : (k == y) = true
    · have hyk : y = k := (eq_of_beq hky).symm
      subst hyk
      have h0 : countKey m y = 0 :=
        countKey_zero_of_not_contains m y (by simpa using hc)
      simp [hky, h0]
    · simp [hky]
      exact h y

theorem countKey_registerGroup_le_one
    (m : List (String × ProviderGroup)) (names : List String) (p : ProviderGroup)
    (h : ∀ y, countKey m y ≤ 1) :
    ∀ y, countKey (registerGroup m names p) y ≤ 1 := by
  induction names generalizing m with
  | nil => exact h
  | cons n rest ih =>
    have hstep := countKey_setKey_le_one m n p h
    exact ih (setKey m n p) hstep

theorem countKey_NewToolManagerMap_le_one (g : GroupTools) (y : String) :
    countKey (NewToolManagerMap g) y ≤ 1 := by
  unfold NewToolManagerMap
  refine countKey_registerGroup_le_one _ _ _ ?_ y
  refine countKey_registerGroup_le_one _ _ _ ?_
  refine countKey_registerGroup_le_one _ _ _ ?_
  refine countKey_registerGroup_le_one _ _ _ ?_
  refine countKey_registerGroup_le_one _ _ _ ?_
  intro z
  simp [countKey]

theorem lookupKey_registerGroup
    (m : List (String × ProviderGroup)) (names : List String) (p : ProviderGroup)
    (x : String) :
    lookupKey (registerGroup m names p) x =
      if names.contains x then some p else lookupKey m x := by
  induction names generalizing m with
  | nil => simp [registerGroup]
  | cons n rest ih =>
    have hstep : registerGroup m (n :: rest) p = registerGroup (setKey m n p) rest p := rfl
    have hceq : (n :: rest).contains x = ((x == n) || rest.contains x) := rfl
    rw [hstep, ih (setKey m n p)]
    by_cases hr : rest.contains x = true
    · have hc : (n :: rest).contains x = true := by
        rw [hceq, hr, Bool.or_true]
      rw [if_pos hr, if_pos hc]
    · simp only [Bool.not_eq_true] at hr
      rw [if_neg (by rw [hr]; exact Bool.false_ne_true)]
      by_cases hx : (x == n) = true
      · have hxe : x = n := eq_of_beq hx
        subst hxe
        have hc : (x :: rest).contains x = true := by
          rw [show (x :: rest).contains x = ((x == x) || rest.contains x) from rfl,
              beq_self_eq_true, Bool.true_or]
        rw [lookupKey_setKey_self, if_pos hc]
      · simp only [Bool.not_eq_true] at hx
        have hxe : x ≠ n := by
          intro h
          rw [h, beq_self_eq_true] at hx
          exact absurd hx (by simp)
        have hc : (n :: rest).contains x = false := by
          rw [hceq, hx, hr, Bool.or_self]
        rw [if_neg (by rw [hc]; exact Bool.false_ne_true),
            lookupKey_setKey_other m n x p hxe]

theorem lookupKey_NewToolManagerMap (g : GroupTools) (x : String) :
    lookupKey (NewToolManagerMap g) x =
      if g.ai.contains x then some ProviderGroup.ai
      else if g.database.contains x then some ProviderGroup.database
      else if g.data.contains x then some ProviderGroup.data
      else if g.network.contains x then some ProviderGroup.network
      else if g.system.contains x then some ProviderGroup.system
      else none := by
  unfold NewToolManagerMap
  rw [lookupKey_registerGroup, lookupKey_registerGroup, lookupKey_registerGroup,
      lookupKey_registerGroup, lookupKey_registerGroup]
  simp [lookupKey]

/-- C5: in the registry built by NewToolManager (groups registered in the
    order system, network, data, database, AI), a name declared by exactly
    two groups ends up as exactly one map entry bound to the
    later-registered group, and a name declared by exactly one group is
    bound to that group. -/
theorem c5_last_write_wins (g : GroupTools) (x : String) :
    (∀ p1 p2 : ProviderGroup, p1.idx < p2.idx →
      g.declares p1 x = true → g.declares p2 x = true →
      (∀ q, q ≠ p1 → q ≠ p2 → g.declares q x = false) →
      lookupKey (NewToolManagerMap g) x = some p2 ∧
      countKey (NewToolManagerMap g) x = 1) ∧
    (∀ p : ProviderGroup, g.declares p x = true →
      (∀ q, q ≠ p → g.declares q x = false) →
      lookupKey (NewToolManagerMap g) x = some p ∧
      countKey (NewToolManagerMap g) x = 1) := by
  have hfull := lookupKey_NewToolManagerMap g x
  constructor
  · intro p1 p2 hidx h1 h2 hoth
    have hgt : ∀ q : ProviderGroup, p2.idx < q.idx → g.declares q x = false := by
      intro q hq
      refine hoth q ?_ ?_
      · intro he
        subst he
        omega
      · intro he
        subst he
        exact absurd hq (lt_irrefl _)
    have hlk : lookupKey (NewToolManagerMap g) x = some p2 := by
      cases p2 with
      | system => cases p1 <;> simp [ProviderGroup.idx] at hidx
      | network =>
        have ha := hgt .ai (by simp [ProviderGroup.idx])
        have hdb := hgt .database (by simp [ProviderGroup.idx])
        have hdt := hgt .data (by simp [ProviderGroup.idx])
        simp only [GroupTools.declares, GroupTools.namesOf] at h2 ha hdb hdt
        rw [hfull, if_neg (by rw [ha]; exact Bool.false_ne_true),
            if_neg (by rw [hdb]; exact Bool.false_ne_true),
            if_neg (by rw [hdt]; exact Bool.false_ne_true), if_pos h2]
      | data =>
        have ha := hgt .ai (by simp [ProviderGroup.idx])
        have hdb := hgt .database (by simp [ProviderGroup.idx])
        simp only [GroupTools.declares, GroupTools.namesOf] at h2 ha hdb
        rw [hfull, if_neg (by rw [ha]; exact Bool.false_ne_true),
            if_neg (by rw [hdb]; exact Bool.false_ne_true), if_pos h2]
      | database =>
        have ha := hgt .ai (by simp [ProviderGroup.idx])
        simp only [GroupTools.declares, GroupTools.namesOf] at h2 ha
        rw [hfull, if_neg (by rw [ha]; exact Bool.false_ne_true), if_pos h2]
      | ai =>
        simp only [GroupTools.declares, GroupTools.namesOf] at h2
        rw [hfull, if_pos h2]
    refine ⟨hlk, Nat.le_antisymm (countKey_NewToolManagerMap_le_one g x)
      (one_le_countKey_of_lookup _ _ _ hlk)⟩
  · intro p hp hoth
    have hlk : lookupKey (NewToolManagerMap g) x = some p := by
      cases p with
      | system =>
        have ha := hoth .ai (by decide)
        have hdb := hoth .database (by decide)
        have hdt := hoth .data (by decide)
        have hnw := hoth .network (by decide)
        simp only [GroupTools.declares, GroupTools.namesOf] at hp ha hdb hdt hnw
        rw [hfull, if_neg (by rw [ha]; exact Bool.false_ne_true),
            if_neg (by rw [hdb]; exact Bool.false_ne_true),
            if_neg (by rw [hdt]; exact Bool.false_ne_true),
            if_neg (by rw [hnw]; exact Bool.false_ne_true), if_pos hp]
      | network =>
        have ha := hoth .ai (by decide)
        have hdb := hoth .database (by decide)
        have hdt := hoth .data (by decide)
        simp only [GroupTools.declares, GroupTools.namesOf] at hp ha hdb hdt
        rw [hfull, if_neg (by rw [ha]; exact Bool.false_ne_true),
            if_neg (by rw [hdb]; exact Bool.false_ne_true),
            if_neg (by rw [hdt]; exact Bool.false_ne_true), if_pos hp]
      | data =>
        have ha := hoth .ai (by decide)
        have hdb := hoth .database (by decide)
        simp only [GroupTools.declares, GroupTools.namesOf] at hp ha hdb
        rw [hfull, if_neg (by rw [ha]; exact Bool.false_ne_true),
            if_neg (by rw [hdb]; exact Bool.false_ne_true), if_pos hp]
      | database =>
        have ha := hoth .ai (by decide)
        simp only [GroupTools.declares, GroupTools.namesOf] at hp ha
        rw [hfull, if_neg (by rw [ha]; exact Bool.false_ne_true), if_pos hp]
      | ai =>
        simp only [GroupTools.declares, GroupTools.namesOf] at hp
        rw [hfull, if_pos hp]
    refine ⟨hlk, Nat.le_antisymm (countKey_NewToolManagerMap_le_one g x)
      (one_le_countKey_of_lookup _ _ _ hlk)⟩

theorem handleResponse_containsKey (t : stdioConnection.Pending) (m : Message)
    (j : RpcId) :
    containsKey (stdioConnection.handleResponse t m) j = containsKey t j := by
  unfold stdioConnection.handleResponse
  by_cases hr : m.IsResponse = true
  · simp only [hr, if_pos]
    cases hid : m.id with
    | none => rfl
    | some k =>
      by_cases hc : containsKey t k = true
      · simp only [hc, if_pos]
        exact containsKey_setKey_of_contains t k j (some m) hc
      · simp only [hc, Bool.false_eq_true, not_false_eq_true, if_neg]
  · simp only [hr, Bool.false_eq_true, not_false_eq_true, if_neg]

theorem trace_keys_aux (evs : List stdioConnection.ConnEvent) :
    ∀ (t : stdioConnection.Pending) (i : RpcId),
      containsKey (evs.foldl stdioConnection.applyEvent t) i = true →
      containsKey t i = true ∨
        ∃ m, stdioConnection.ConnEvent.send m ∈ evs ∧
          m.IsRequest = true ∧ m.id = some i := by
  induction evs with
  | nil =>
    intro t i h
    exact Or.inl h
  | cons e rest ih =>
    intro t i h
    rw [List.foldl_cons] at h
    rcases ih (stdioConnection.applyEvent t e) i h with h2 | ⟨m, hm, hreq, hid⟩
    · cases e with
      | send m =>
        unfold stdioConnection.applyEvent stdioConnection.sendRegister at h2
        by_cases hreq : m.IsRequest = true
        · simp only [hreq, if_pos] at h2
          cases hid2 : m.id with
          | none =>
            rw [hid2] at h2
            exact Or.inl h2
          | some j =>
            rw [hid2] at h2
            rcases containsKey_setKey_elim t j i none h2 with hij | hc
            · subst hij
              exact Or.inr ⟨m, List.mem_cons_self _ _, hreq, hid2⟩
            · exact Or.inl hc
        · simp only [hreq, Bool.false_eq_true, not_false_eq_true, if_neg] at h2
          exact Or.inl h2
      | recv m =>
        unfold stdioConnection.applyEvent at h2
        rw [handleResponse_containsKey t m i] at h2
        exact Or.inl h2
      | wait j =>
        simp only [stdioConnection.applyEvent] at h2
        unfold stdioConnection.pollStep at h2
        cases hl : lookupKey t j with
        | none =>
          rw [hl] at h2
          exact Or.inl h2
        | some w =>
          cases w with
          | none =>
            rw [hl] at h2
            exact Or.inl h2
          | some r =>
            rw [hl] at h2
            exact Or.inl (containsKey_removeKey_elim t j i h2)
    · exact Or.inr ⟨m, List.mem_cons_of_mem _ hm, hreq, hid⟩

/-- C10: every key in the stdio connection's pending table traces back to
    a SendMessage of a message with IsRequest true; handleResponse
    discards a response whose id has no existing entry, and a non-response
    message never modifies the table. -/
theorem c10_pending_table_invariant (evs : List stdioConnection.ConnEvent) (i : RpcId)
    (hk : containsKey (stdioConnection.runTrace evs) i = true) :
    (∃ m, stdioConnection.ConnEvent.send m ∈ evs ∧
       m.IsRequest = true ∧ m.id = some i) ∧
    (∀ (t : stdioConnection.Pending) (m : Message), m.IsResponse = false →
       stdioConnection.handleResponse t m = t) ∧
    (∀ (t : stdioConnection.Pending) (m : Message) (j : RpcId), m.id = some j →
       containsKey t j = false → stdioConnection.handleResponse t m = t) := by
  refine ⟨?_, ?_, ?_⟩
  · rcases trace_keys_aux evs [] i hk with h | h
    · simp [containsKey, lookupKey] at h
    · exact h
  · intro t m hm
    unfold stdioConnection.handleResponse
    simp [hm]
  · intro t m j hj hc
    unfold stdioConnection.handleResponse
    by_cases hr : m.IsResponse = true
    · simp [hr, hj, hc]
    · simp [hr]

/-- C10 witness: the pending-table invariant applied to the one-event
    trace that sends a concrete request. -/
theorem c10_pending_table_invariant_witness :
    (∃ m, stdioConnection.ConnEvent.send m ∈
        [stdioConnection.ConnEvent.send pingMsg] ∧
       m.IsRequest = true ∧ m.id = some (RpcId.num 1)) ∧
    (∀ (t : stdioConnection.Pending) (m : Message), m.IsResponse = false →
       stdioConnection.handleResponse t m = t) ∧
    (∀ (t : stdioConnection.Pending) (m : Message) (j : RpcId), m.id = some j →
       containsKey t j = false → stdioConnection.handleResponse t m = t) :=
  c10_pending_table_invariant [stdioConnection.ConnEvent.send pingMsg]
    (RpcId.num 1) rfl

/-- C6 counterexample: registering request id 1, timing out a first wait,
    then delivering a late response makes a second wait on id 1 return
    that late response, not the sentinel: the timed-out wait left the
    stale pending entry in the table, so the late response resurrects it. -/
theorem c6_late_response_resurrected :
    ((stdioConnection.waitLoop (stdioConnection.sendRegister [] pingMsg)
        (RpcId.num 1) 5).2 = none) ∧
    ((stdioConnection.waitLoop
        (stdioConnection.handleResponse
          (stdioConnection.sendRegister [] pingMsg) lateReply)
        (RpcId.num 1) 5).2 = some lateReply) ∧
    (some lateReply ≠ (none : Option Message)) :=
  ⟨rfl, rfl, by simp⟩

/-- C6 (amended): a WaitForResponse during which no non-nil response is
    stored returns the nil sentinel and leaves the pending table unchanged
    (the timed-out entry is not removed); consequently a late response
    whose id still has an entry is stored by handleResponse, and a second
    WaitForResponse on the same id returns that late response rather than
    the sentinel. -/
theorem c6_wait_timeout_keeps_entry (t : stdioConnection.Pending) (i : RpcId)
    (n : Nat) (r : Message)
    (hmiss : lookupKey t i = none ∨ lookupKey t i = some none)
    (hresp : r.IsResponse = true) (hid : r.id = some i)
    (hin : containsKey t i = true) :
    stdioConnection.waitLoop t i n = (t, none) ∧
    (stdioConnection.waitLoop (stdioConnection.handleResponse t r) i (n + 1)).2
      = some r := by
  have hp : stdioConnection.pollStep t i = (t, none) := by
    unfold stdioConnection.pollStep
    rcases hmiss with h | h <;> rw [h]
  constructor
  · induction n with
    | zero => rfl
    | succ k ihk =>
      rw [show stdioConnection.waitLoop t i (k + 1) =
          (match stdioConnection.pollStep t i with
           | (t2, some r2) => (t2, some r2)
           | (_, none) => stdioConnection.waitLoop t i k) from rfl, hp]
      exact ihk
  · have hset : stdioConnection.handleResponse t r = setKey t i (some r) := by
      unfold stdioConnection.handleResponse
      rw [hresp, hid]
      simp [hin]
    have hlk : lookupKey (setKey t i (some r)) i = some (some r) :=
      lookupKey_setKey_self t i (some r)
    rw [hset, show stdioConnection.waitLoop (setKey t i (some r)) i (n + 1) =
        (match stdioConnection.pollStep (setKey t i (some r)) i with
         | (t2, some r2) => (t2, some r2)
         | (_, none) => stdioConnection.waitLoop (setKey t i (some r)) i n) from rfl]
    unfold stdioConnection.pollStep
    rw [hlk]

/-- C6 witness: the timeout-keeps-entry theorem applied to a concrete
    table awaiting id 1 and the concrete late reply. -/
theorem c6_wait_timeout_keeps_entry_witness :
    stdioConnection.waitLoop [(RpcId.num 1, none)] (RpcId.num 1) 3
      = ([(RpcId.num 1, none)], none) ∧
    (stdioConnection.waitLoop
        (stdioConnection.handleResponse [(RpcId.num 1, none)] lateReply)
        (RpcId.num 1) (3 + 1)).2 = some lateReply :=
  c6_wait_timeout_keeps_entry [(RpcId.num 1, none)] (RpcId.num 1) 3 lateReply
    (Or.inr rfl) rfl rfl rfl

/-- C5 witness: the last-write-wins theorem applied to a registry where
    the system and network groups both declare the tool name x and the
    network group wins. -/
theorem c5_last_write_wins_witness :
    lookupKey (NewToolManagerMap
      { system := ["x"], network := ["x"], data := [], database := [], ai := [] }) "x"
      = some ProviderGroup.network ∧
    countKey (NewToolManagerMap
      { system := ["x"], network := ["x"], data := [], database := [], ai := [] }) "x"
      = 1 :=
  (c5_last_write_wins
    { system := ["x"], network := ["x"], data := [], database := [], ai := [] } "x").1
    .system .network (by simp [ProviderGroup.idx]) rfl rfl
    (fun q hq1 hq2 => by
      cases q with
      | system => exact absurd rfl hq1
      | network => exact absurd rfl hq2
      | data => rfl
      | database => rfl
      | ai => rfl)

end MCPAI
